import Mathlib

set_option maxRecDepth 10000

/-!
Verification of the reasoning-loop orchestrator of `hypha-code-agent`
(`src/src/agent.ts` and the unnamed source file `src/unnamed/part_000`,
which contains the `AgentManager` class with `processQueryInReactLoop`).

The development shallowly embeds, from the TypeScript source:

* the streaming-delta accumulator `messageReducer`
  (`part_000` lines 246-281, identical in `agent.ts` lines 186-220);
* the output summarizers `stripAnsiCodes` and `shortenOutput`
  (`part_000` lines 369-401);
* the tool invoker `executeCodeTool` (`part_000` lines 283-367);
* the react loop `processQueryInReactLoop` (`part_000` lines 411-564);
* the single-shot `processQuery` of `agent.ts` (lines 76-183) together
  with its own variants of the invoker and summarizer (`agent.ts`
  lines 222-318), which differ from `part_000` in the traceback and
  ANSI handling.

JavaScript-specific conventions used throughout the embedding:

* A field that may be absent from a JS object (`undefined`) is an
  `Option`; `none` is `undefined`.  Explicitly-`null` delta fields are
  not modelled (the OpenAI stream omits absent fields; for the initial
  accumulator `{role:'assistant', content:''}` both behave alike).
* JS string operations act on UTF-16 code units; the embedding uses
  Lean `String` characters.  The two agree on all characters of the
  Basic Multilingual Plane, which covers every string the claims use.
* JS truthiness of a string (`if (s)`) is `s ≠ ""` for a present
  string and false for `undefined`.
* Sparse JS arrays (created by writing past the end of an array) are
  `List (Option α)`; `none` is a hole, and `arr.length` counts holes,
  exactly as in JS.
-/

namespace HyphaAgent

/-- The nested `function` object of a (possibly partial) tool call:
`{ name?, arguments? }`.  Both fields are strings that may still be
absent while streaming. -/
structure FnObj where
  name : Option String
  arguments : Option String
  deriving DecidableEq, Repr

/-- One entry of the accumulated `tool_calls` array: `{ id?, type?,
function? }`.  This is the shape of a streamed tool-call fragment after
its `index` key has been removed (`delete arr.index` on the first
batch, destructuring `const { index, ...chunkTool }` on later ones). -/
structure StoredCall where
  id : Option String
  type : Option String
  function : Option FnObj
  deriving DecidableEq, Repr

/-- An element of `delta.tool_calls` as delivered by the transport:
a `StoredCall` shape plus the zero-based `index` key that addresses the
slot it merges into. -/
structure ToolCallFragment where
  index : Option Nat
  id : Option String
  type : Option String
  function : Option FnObj
  deriving DecidableEq, Repr

/-- `choice.delta` of one streamed chunk: incremental `role`/`content`
text and/or a batch of tool-call fragments. -/
structure Delta where
  role : Option String
  content : Option String
  tool_calls : Option (List ToolCallFragment)
  deriving DecidableEq, Repr

/-- One element of `chunk.choices`. -/
structure Choice where
  delta : Delta
  deriving DecidableEq, Repr

/-- One streamed chunk, `{ choices: [...] }`. -/
structure Chunk where
  choices : List Choice
  deriving DecidableEq, Repr

/-- The message object being accumulated by `messageReducer`.  It
starts as `{ role: 'assistant', content: '' }`; `tool_calls` appears
once a chunk delivers tool-call fragments.  The array may contain
holes (`none`) when a fragment writes past the current length. -/
structure Message where
  role : Option String
  content : Option String
  tool_calls : Option (List (Option StoredCall))
  deriving DecidableEq, Repr

/-- The initial accumulator `{ role: 'assistant', content: '' }`
(`part_000` line 474, `agent.ts` line 127). -/
def initAssistant : Message := ⟨some "assistant", some "", none⟩

/-- The generic per-key rule of the reducer specialised to a
string-valued key (`part_000` lines 251-260): an `undefined`/`null`
accumulator slot is set to the delta's value; two strings are
concatenated; a key absent from the delta leaves the slot unchanged. -/
def mergeStr : Option String → Option String → Option String
  | none, v => v
  | some a, none => some a
  | some a, some b => some (a ++ b)

/-- The recursive `reduce` applied to the nested `function` objects
(`part_000` line 270): both `name` and `arguments` are strings, so each
follows the set-once-then-concatenate string rule. -/
def reduceFn (acc : FnObj) (d : FnObj) : FnObj :=
  ⟨mergeStr acc.name d.name, mergeStr acc.arguments d.arguments⟩

/-- The recursive `reduce` applied to one `tool_calls` entry and one
index-stripped fragment (`part_000` line 267).  `id` and `type` are
strings; `function` is an object merged recursively.  The JS call
builds a fresh object (`acc = { ...acc }`), so this level is a pure
computation; the mutation visible to callers happens one level up,
where the resulting object is written into the shared array. -/
def reduceCall (acc : StoredCall) (d : StoredCall) : StoredCall :=
  { id := mergeStr acc.id d.id
    type := mergeStr acc.type d.type
    function :=
      match acc.function, d.function with
      | none, v => v
      | some fa, none => some fa
      | some fa, some fd => some (reduceFn fa fd) }

/-- Drop the `index` key of a fragment, keeping the rest
(`const { index, ...chunkTool } = value[i]`, `part_000` line 266). -/
def fragToStored (fr : ToolCallFragment) : StoredCall :=
  ⟨fr.id, fr.type, fr.function⟩

/-- `delete arr.index` on a fragment object (`part_000` line 256):
the object keeps its other keys and loses `index`. -/
def stripIndex (fr : ToolCallFragment) : ToolCallFragment :=
  ⟨none, fr.id, fr.type, fr.function⟩

/-- Reading `accArray[index] || {}` from a possibly sparse JS array:
an out-of-range read or a hole yields `undefined`, which `|| {}`
replaces by the empty object. -/
def jsArrayGet (a : List (Option StoredCall)) (i : Nat) : StoredCall :=
  (a.getD i none).getD ⟨none, none, none⟩

/-- Writing `accArray[index] = v` to a JS array: inside the current
length the slot is replaced; past the end the array grows to length
`i + 1`, padding the skipped slots with holes. -/
def jsArraySet (a : List (Option StoredCall)) (i : Nat) (v : StoredCall) :
    List (Option StoredCall) :=
  if i < a.length then a.set i (some v)
  else a ++ List.replicate (i - a.length) none ++ [some v]

/-- Merge one batch of fragments into an existing `tool_calls` array
(`part_000` lines 263-268): each fragment is index-stripped and merged
into the slot named by its `index`.  A fragment whose `index` is
`undefined` would be written to the non-element property
`"undefined"` of the JS array, invisible to element iteration, so it
is dropped here. -/
def mergeFragments (a : List (Option StoredCall)) (frs : List ToolCallFragment) :
    List (Option StoredCall) :=
  frs.foldl
    (fun acc fr =>
      match fr.index with
      | none => acc
      | some i => jsArraySet acc i (reduceCall (jsArrayGet acc i) (fragToStored fr)))
    a

/-- Result of one reducer application, with the post-call state of the
objects reachable from both arguments made explicit.  JS reference
semantics make `messageReducer` observably impure:

* `acc = { ...acc }` is a **shallow** copy, so `acc.tool_calls` is the
  same array object as `previous.tool_calls`; the merge branch then
  assigns `accArray[index] = ...` into that shared array (`part_000`
  line 267), so the caller's `previous` sees the merged entries.
* on the first batch of fragments the array is aliased wholesale
  (`acc[key] = value`) and `delete arr.index` is run on its elements
  (`part_000` lines 252-257), mutating the delta's fragment objects.

`result` is the returned message, `prevAfter` the `previous` argument
as observable after the call, `deltaAfter` the delta likewise. -/
structure ReduceOut where
  result : Message
  prevAfter : Message
  deltaAfter : Delta
  deriving DecidableEq, Repr

/-- The inner `reduce(acc, delta)` of `messageReducer` (`part_000`
lines 248-274) specialised to the message level, where the keys a
delta can carry are `role`, `content` (strings) and `tool_calls`
(an array).  Key order in `Object.entries` is irrelevant because the
keys are distinct.  For `tool_calls`:

* accumulator slot `undefined` → the delta's array is adopted as-is
  (aliased) and every element loses its `index` key (lines 252-257) —
  note the indices are **not** used for placement on this path;
* both arrays present → per-fragment indexed merge (lines 263-268)
  into the shared array. -/
def reduceDelta (prev : Message) (d : Delta) : ReduceOut :=
  let role' := mergeStr prev.role d.role
  let content' := mergeStr prev.content d.content
  match prev.tool_calls, d.tool_calls with
  | tc, none =>
      { result := ⟨role', content', tc⟩
        prevAfter := prev
        deltaAfter := d }
  | none, some frs =>
      { result := ⟨role', content', some (frs.map (fun fr => some (fragToStored fr)))⟩
        prevAfter := prev
        deltaAfter := { d with tool_calls := some (frs.map stripIndex) } }
  | some a, some frs =>
      let merged := mergeFragments a frs
      { result := ⟨role', content', some merged⟩
        prevAfter := { prev with tool_calls := some merged }
        deltaAfter := d }

/-- `messageReducer(previous, chunk)` with the argument-mutation trace
(`part_000` lines 246-281): an empty `choices` array returns `previous`
unchanged; otherwise `reduce(previous, chunk.choices[0].delta)` runs. -/
def messageReducerT (prev : Message) (ck : Chunk) : ReduceOut × Chunk :=
  match ck.choices with
  | [] => (⟨prev, prev, ⟨none, none, none⟩⟩, ck)
  | ch :: rest =>
      let r := reduceDelta prev ch.delta
      (r, ⟨⟨r.deltaAfter⟩ :: rest⟩)

/-- The value returned by `messageReducer(previous, chunk)`; the loop
threads this through `message = this.messageReducer(message, chunk)`. -/
def messageReducer (prev : Message) (ck : Chunk) : Message :=
  (messageReducerT prev ck).1.result

/-- `text.trim()`: drop whitespace from both ends.  JS trims
`WhiteSpace` and `LineTerminator` code points; `Char.isWhitespace`
agrees on all of them that occur in kernel output (space, tab, CR,
LF, FF). -/
def jsTrim (s : String) : String :=
  ⟨((s.data.dropWhile Char.isWhitespace).reverse.dropWhile Char.isWhitespace).reverse⟩

/-- Worker for `text.split('\n')` on the character list: an empty
string yields one empty piece, and every `'\n'` starts a new piece. -/
def splitNlAux : List Char → List (List Char)
  | [] => [[]]
  | c :: rest =>
      if c = '\n' then [] :: splitNlAux rest
      else
        match splitNlAux rest with
        | [] => [[c]]
        | l :: ls => (c :: l) :: ls

/-- `text.split('\n')`. -/
def jsSplitNl (s : String) : List String := (splitNlAux s.data).map fun l => ⟨l⟩

/-- Is a character matched by `[0-9;]` in the ANSI-escape regex. -/
def isAnsiParam (c : Char) : Bool := c.isDigit || c = ';'

/-- Worker for `stripAnsiCodes`, performing the global replacement of
`/\x1b\[[0-9;]*m/` by the empty string: at each position, if the
escape pattern matches (ESC, `[`, a maximal run of digits/semicolons,
`m` — the pattern is deterministic because `m` is not a parameter
character), the match is skipped; otherwise the character is kept.
The `fuel` argument only bounds the recursion; every call consumes at
least one character per unit of fuel, so `fuel = length` never runs
out (the `0, _` branch is unreachable from `stripAnsiCodes`). -/
def stripAnsiGo : Nat → List Char → List Char
  | 0, _ => []
  | _ + 1, [] => []
  | fuel + 1, c :: cs =>
    if c = '\x1b' then
      match cs with
      | '[' :: rest =>
        match rest.dropWhile isAnsiParam with
        | 'm' :: tail => stripAnsiGo fuel tail
        | _ => c :: stripAnsiGo fuel cs
      | _ => c :: stripAnsiGo fuel cs
    else c :: stripAnsiGo fuel cs

/-- `stripAnsiCodes(text)` (`part_000` lines 369-373):
`text.replace(/\x1b\[[0-9;]*m/g, '')`. -/
def stripAnsiCodes (s : String) : String := ⟨stripAnsiGo s.data.length s.data⟩

/-- `shortenOutput(text, _type)` of `part_000` (lines 375-401): empty
text short-circuits; otherwise ANSI codes are stripped, the text is
trimmed, then capped at 20 lines and subsequently at 1000 characters,
each truncation appending its own `... (N more lines/characters
truncated)` marker.  The `_ty` argument is unused, as in the source. -/
def shortenOutput (text : String) (_ty : String) : String :=
  if text = "" then ""
  else
    let t1 := jsTrim (stripAnsiCodes text)
    let ls := jsSplitNl t1
    let t2 :=
      if ls.length > 20 then
        String.intercalate "\n" (ls.take 20) ++
          "\n... (" ++ toString (ls.length - 20) ++ " more lines truncated)"
      else t1
    if t2.length > 1000 then
      t2.take 1000 ++ "\n... (" ++ toString (t2.length - 1000) ++ " more characters truncated)"
    else t2

/-- `shortenOutput` of `agent.ts` (lines 295-318): identical except
that no ANSI stripping is performed before trimming. -/
def shortenOutputA (text : String) (_ty : String) : String :=
  if text = "" then ""
  else
    let t1 := jsTrim text
    let ls := jsSplitNl t1
    let t2 :=
      if ls.length > 20 then
        String.intercalate "\n" (ls.take 20) ++
          "\n... (" ++ toString (ls.length - 20) ++ " more lines truncated)"
      else t1
    if t2.length > 1000 then
      t2.take 1000 ++ "\n... (" ++ toString (t2.length - 1000) ++ " more characters truncated)"
    else t2

/-- The rich-display MIME bundle `evt.data.data` of an
`execute_result`/`display_data` event.  `json` holds
`JSON.stringify(data['application/json'])`, i.e. the payload is
modelled by its stringified image (a payload stringifying to the empty
string is treated as absent; immaterial to the claims). -/
structure MimeBundle where
  png : Option String
  jpeg : Option String
  html : Option String
  json : Option String
  plain : Option String
  deriving DecidableEq, Repr

/-- The `data` payload of one execution output event. -/
structure EventData where
  text : Option String
  data : Option MimeBundle
  ename : Option String
  evalue : Option String
  traceback : Option (List String)
  deriving DecidableEq, Repr

/-- One typed output event of an `ExecutionResult`
(`src/unnamed/part_001` lines 4-7). -/
structure ExecutionEvent where
  type : String
  data : Option EventData
  deriving DecidableEq, Repr

/-- The sandbox execution outcome (`src/unnamed/part_001` lines 9-13). -/
structure ExecutionResult where
  success : Bool
  outputs : List ExecutionEvent
  error : Option String
  deriving DecidableEq, Repr

/-- JS truthiness of a possibly-absent string: `undefined` and `""`
are falsy. -/
def jsTruthy : Option String → Bool
  | none => false
  | some s => s ≠ ""

/-- Template-literal rendering of a possibly-`undefined` string
(`` `${evt.data?.ename}` `` prints `undefined` when absent). -/
def jsShow (o : Option String) : String := o.getD "undefined"

/-- The per-event body of the output-collection loop of `part_000`'s
`executeCodeTool` (lines 309-341), returning the list of parts pushed
for one event:

* `stream` → the shortened `evt.data?.text || ''`;
* `execute_result`/`display_data` → by MIME type, in priority order:
  an opaque placeholder for `image/png` / `image/jpeg`, shortened text
  for `text/html`, stringified JSON, or `text/plain`;
* `error`/`execute_error` → `` `${ename}: ${evalue}` `` plus, when a
  non-empty traceback exists, its first 5 lines ANSI-stripped and
  joined with newlines. -/
def renderEvent (evt : ExecutionEvent) : List String :=
  if evt.type = "stream" then
    [shortenOutput ((evt.data.bind (·.text)).getD "") "text"]
  else if evt.type = "execute_result" ∨ evt.type = "display_data" then
    match evt.data.bind (·.data) with
    | none => []
    | some md =>
      if jsTruthy md.png then ["<image/png: base64 data truncated>"]
      else if jsTruthy md.jpeg then ["<image/jpeg: base64 data truncated>"]
      else if jsTruthy md.html then [shortenOutput (md.html.getD "") "html"]
      else if jsTruthy md.json then [shortenOutput (md.json.getD "") "json"]
      else if jsTruthy md.plain then [shortenOutput (md.plain.getD "") "text"]
      else []
  else if evt.type = "error" ∨ evt.type = "execute_error" then
    let errMsg := jsShow (evt.data.bind (·.ename)) ++ ": " ++ jsShow (evt.data.bind (·.evalue))
    match evt.data.bind (·.traceback) with
    | some tb =>
        if tb.length > 0 then
          [errMsg, String.intercalate "\n" ((tb.take 5).map stripAnsiCodes)]
        else [errMsg]
    | none => [errMsg]
  else []

/-- The per-event body of `agent.ts`'s `executeCodeTool` (lines
247-275): as `renderEvent` but with the `agent.ts` summarizer, only
the `error` event type, and the first 3 traceback lines joined without
ANSI stripping. -/
def renderEventA (evt : ExecutionEvent) : List String :=
  if evt.type = "stream" then
    [shortenOutputA ((evt.data.bind (·.text)).getD "") "text"]
  else if evt.type = "execute_result" ∨ evt.type = "display_data" then
    match evt.data.bind (·.data) with
    | none => []
    | some md =>
      if jsTruthy md.png then ["<image/png: base64 data truncated>"]
      else if jsTruthy md.jpeg then ["<image/jpeg: base64 data truncated>"]
      else if jsTruthy md.html then [shortenOutputA (md.html.getD "") "html"]
      else if jsTruthy md.json then [shortenOutputA (md.json.getD "") "json"]
      else if jsTruthy md.plain then [shortenOutputA (md.plain.getD "") "text"]
      else []
  else if evt.type = "error" then
    let errMsg := jsShow (evt.data.bind (·.ename)) ++ ": " ++ jsShow (evt.data.bind (·.evalue))
    match evt.data.bind (·.traceback) with
    | some tb =>
        if tb.length > 0 then [errMsg, String.intercalate "\n" (tb.take 3)]
        else [errMsg]
    | none => [errMsg]
  else []

/-- The value returned by `executeCodeTool`. -/
structure ToolResult where
  success : Bool
  output : String
  deriving DecidableEq, Repr

/-- The code-block echo emitted by `part_000`'s `executeCodeTool`
(lines 291-300): the first line follows a ```` ```python ```` fence
and is always echoed; later lines are echoed only when non-blank;
a closing fence follows. -/
def codeEcho (code : String) : List String :=
  (match jsSplitNl code with
   | [] => []
   | l0 :: rest => ["```python", l0] ++ rest.filter (fun l => jsTrim l ≠ "")) ++ ["```"]

/-- The code echo of `agent.ts`'s `executeCodeTool` (lines 230-238):
`>>> ` before the first line, `... ` before later non-blank lines,
then a blank line. -/
def codeEchoA (code : String) : List String :=
  (match jsSplitNl code with
   | [] => []
   | l0 :: rest =>
       (">>> " ++ l0) :: (rest.filter (fun l => jsTrim l ≠ "")).map (fun l => "... " ++ l)) ++ [""]

/-- `executeCodeTool(code, explanation)` of `part_000` (lines
283-367), with the sandbox call abstracted as
`execute : String → Except String ExecutionResult` (`Except.error`
models `kernelManager.executeCode` throwing).  Returns the
side-channel output lines and the `ToolResult`.  Every event's parts
are joined with newlines and trimmed; an empty summary falls back to
a success note, the outcome's top-level `error` string, or
`'Unknown error'` (JS `||` treats an empty `error` as absent).  A
thrown execution is caught and yields `success:false` with the
diagnostic text — this function never throws. -/
def executeCodeTool (execute : String → Except String ExecutionResult)
    (code explanation : String) : List String × ToolResult :=
  let pre := ["", "💡 " ++ explanation, "", "🔧 Tool (executeCode):"] ++ codeEcho code
  match execute code with
  | .error e =>
      let msg := "Execution error: " ++ e
      (pre ++ [msg], ⟨false, msg⟩)
  | .ok result =>
      let output := jsTrim (String.intercalate "\n" (result.outputs.map renderEvent).flatten)
      (pre,
        ⟨result.success,
          if output ≠ "" then output
          else if result.success then "Code executed successfully (no output)"
          else match result.error with
            | some e => if e ≠ "" then e else "Unknown error"
            | none => "Unknown error"⟩)

/-- `executeCodeTool` of `agent.ts` (lines 222-293): as above with the
`agent.ts` echo and event rendering. -/
def executeCodeToolA (execute : String → Except String ExecutionResult)
    (code explanation : String) : List String × ToolResult :=
  let pre := ["", "💡 " ++ explanation, "", "🔧 Tool (executeCode):"] ++ codeEchoA code
  match execute code with
  | .error e =>
      let msg := "Execution error: " ++ e
      (pre ++ [msg], ⟨false, msg⟩)
  | .ok result =>
      let output := jsTrim (String.intercalate "\n" (result.outputs.map renderEventA).flatten)
      (pre,
        ⟨result.success,
          if output ≠ "" then output
          else if result.success then "Code executed successfully (no output)"
          else match result.error with
            | some e => if e ≠ "" then e else "Unknown error"
            | none => "Unknown error"⟩)

/-- One entry of `conversationHistory`.  Assistant messages may carry
`tool_calls` (spread in only when the accumulated message has them);
tool messages carry `tool_call_id` and a JSON-encoded body. -/
structure ChatMessage where
  role : String
  content : String
  tool_calls : Option (List (Option StoredCall))
  tool_call_id : Option String
  deriving DecidableEq, Repr

/-- A `user`-role history entry. -/
def userMsg (q : String) : ChatMessage := ⟨"user", q, none, none⟩

/-- A `tool`-role history entry with its `tool_call_id` (which JS
leaves `undefined` when the request had no `id`). -/
def toolMsg (id : Option String) (content : String) : ChatMessage :=
  ⟨"tool", content, none, id⟩

/-- The assistant history entry built from an accumulated message
(`part_000` lines 490-494): `content: message.content || ''` and
`tool_calls` spread in exactly when present (an empty array is truthy
in JS and is kept). -/
def mkAssistantMsg (m : Message) : ChatMessage :=
  ⟨"assistant", m.content.getD "", m.tool_calls, none⟩

/-- One lowercase hex digit, as produced by `JSON.stringify`'s
`\u00XX` escapes. -/
def hexDigit (n : Nat) : String :=
  String.singleton (if n < 10 then Char.ofNat (48 + n) else Char.ofNat (87 + n))

/-- `JSON.stringify` escaping of one character of a string value. -/
def jsEscapeChar (c : Char) : String :=
  if c = '"' then "\\\""
  else if c = '\\' then "\\\\"
  else if c = '\n' then "\\n"
  else if c = '\r' then "\\r"
  else if c = '\t' then "\\t"
  else if c = '\x08' then "\\b"
  else if c = '\x0c' then "\\f"
  else if c.toNat < 32 then "\\u00" ++ hexDigit (c.toNat / 16) ++ hexDigit (c.toNat % 16)
  else String.singleton c

/-- `JSON.stringify` escaping of a string value. -/
def jsEscape (s : String) : String := String.join (s.data.map jsEscapeChar)

/-- `JSON.stringify({ success, output })` as pushed into a tool-role
message (`part_000` line 513). -/
def stringifySuccessOutput (success : Bool) (output : String) : String :=
  "\x7b\"success\":" ++ (if success then "true" else "false") ++
    ",\"output\":\"" ++ jsEscape output ++ "\"\x7d"

/-- `JSON.stringify({ success: false, error })` as pushed when the
tool-call handling threw (`part_000` line 523). -/
def stringifySuccessError (e : String) : String :=
  "\x7b\"success\":false,\"error\":\"" ++ jsEscape e ++ "\"\x7d"

/-- The synthetic budget reminder injected when
`loopCount >= maxSteps - 2` (`part_000` lines 536-541).  JS computes
`maxSteps - 2` over the integers; for `maxSteps < 2` the comparison is
against a negative number and always true, which coincides with the
truncated `Nat` subtraction used here. -/
def reminderMsg (maxSteps : Nat) : ChatMessage :=
  ⟨"user",
    "⚠ You are approaching the maximum number of reasoning steps (" ++
      toString maxSteps ++ "). Please provide a final response summarizing your work.",
    none, none⟩

/-- The budget-exhaustion notification emitted after the loop
(`part_000` line 555). -/
def exhaustNote (maxSteps : Nat) : String :=
  "⚠ Reached maximum reasoning steps (" ++ toString maxSteps ++ ")"

/-- The object produced by `JSON.parse(toolCall.function.arguments)`
followed by the `args.code` / `args.explanation` reads. -/
structure ExecArgs where
  code : String
  explanation : String
  deriving DecidableEq, Repr

/-- The collaborators and readiness flags of an `AgentManager`:

* `transport k` is the chunk stream returned by the `k`-th
  `client.chat.completions.create` call (the fake LLM transport of the
  testable properties, deterministic per completion ordinal);
* `execute` is `kernelManager.executeCode`, with `Except.error`
  modelling a throw;
* `parseArgs` models `JSON.parse` on the raw `arguments` payload plus
  the `code`/`explanation` field reads, with `Except.error` carrying
  the exception text of a malformed payload (`none` input is an absent
  `arguments` string, on which `JSON.parse` also throws);
* `clientReady` is `this.client !== null`, `kernelReady` is
  `this.kernelManager.isInitialized()`. -/
structure AgentCfg where
  transport : Nat → List Chunk
  execute : String → Except String ExecutionResult
  parseArgs : Option String → Except String ExecArgs
  clientReady : Bool
  kernelReady : Bool

/-- The observable state threaded through a query: the conversation
history, the lines passed to `onOutput` (their `type`/`append`
presentation arguments are dropped), and the number of completion
calls made so far. -/
structure LoopState where
  history : List ChatMessage
  outputs : List String
  completions : Nat
  deriving DecidableEq, Repr

/-- The streaming segment shared by both entry points (`part_000`
lines 474-487): fold `messageReducer` over the chunks starting from
`{ role: 'assistant', content: '' }`, forwarding each chunk's
`choices[0]?.delta.content` to the output sink when truthy.  Returns
the accumulated message and the forwarded content pieces. -/
def accumulateResponse (chunks : List Chunk) : Message × List String :=
  chunks.foldl
    (fun (p : Message × List String) ck =>
      let m := messageReducer p.1 ck
      let outs :=
        match ck.choices with
        | [] => p.2
        | ch :: _ =>
            match ch.delta.content with
            | some s => if s ≠ "" then p.2 ++ [s] else p.2
            | none => p.2
      (m, outs))
    (initAssistant, [])

/-- The tool-call execution loop of `processQueryInReactLoop`
(`part_000` lines 500-527).  Arguments: the entries of
`message.tool_calls` (with `none` a sparse-array hole), the current
state, and the `hasExecutedTools` flag.  Returns the state, the flag,
and `some msg` when the iteration threw:

* a hole makes JS read `.type` of `undefined` — a `TypeError`;
* an entry with `type === 'function'` but no `function` object throws
  on reading `.name`;
* entries that are not `executeCode` function calls are skipped with
  no effect;
* for an `executeCode` call the flag is set, then a malformed
  arguments payload is caught and recorded as a
  `{success:false, error}` tool message, while a parsed one runs
  `executeCodeTool` (which never throws) and records
  `{success, output}`. -/
def processToolCalls (cfg : AgentCfg) :
    List (Option StoredCall) → LoopState → Bool → LoopState × Bool × Option String
  | [], st, flag => (st, flag, none)
  | none :: _, st, flag =>
      (st, flag, some "Cannot read properties of undefined (reading 'type')")
  | some tc :: rest, st, flag =>
      if tc.type = some "function" then
        match tc.function with
        | none => (st, flag, some "Cannot read properties of undefined (reading 'name')")
        | some f =>
          if f.name = some "executeCode" then
            match cfg.parseArgs f.arguments with
            | .error e =>
                processToolCalls cfg rest
                  { st with
                    outputs := st.outputs ++ ["Error executing code: " ++ e],
                    history := st.history ++ [toolMsg tc.id (stringifySuccessError e)] }
                  true
            | .ok args =>
                let r := executeCodeTool cfg.execute args.code args.explanation
                processToolCalls cfg rest
                  { st with
                    outputs := st.outputs ++ r.1,
                    history := st.history ++
                      [toolMsg tc.id (stringifySuccessOutput r.2.success r.2.output)] }
                  true
          else processToolCalls cfg rest st flag
      else processToolCalls cfg rest st flag

/-- The tool-call execution loop of `agent.ts`'s `processQuery`
(lines 150-175): as `processToolCalls` but with the `agent.ts` invoker
and no `hasExecutedTools` flag. -/
def processToolCallsA (cfg : AgentCfg) :
    List (Option StoredCall) → LoopState → LoopState × Option String
  | [], st => (st, none)
  | none :: _, st =>
      (st, some "Cannot read properties of undefined (reading 'type')")
  | some tc :: rest, st =>
      if tc.type = some "function" then
        match tc.function with
        | none => (st, some "Cannot read properties of undefined (reading 'name')")
        | some f =>
          if f.name = some "executeCode" then
            match cfg.parseArgs f.arguments with
            | .error e =>
                processToolCallsA cfg rest
                  { st with
                    outputs := st.outputs ++ ["Error executing code: " ++ e],
                    history := st.history ++ [toolMsg tc.id (stringifySuccessError e)] }
            | .ok args =>
                let r := executeCodeToolA cfg.execute args.code args.explanation
                processToolCallsA cfg rest
                  { st with
                    outputs := st.outputs ++ r.1,
                    history := st.history ++
                      [toolMsg tc.id (stringifySuccessOutput r.2.success r.2.output)] }
          else processToolCallsA cfg rest st
      else processToolCallsA cfg rest st

/-- Result of one iteration of the react loop: the state, whether the
JS `continue` was taken, and `some msg` when the iteration threw. -/
structure StepOut where
  st : LoopState
  cont : Bool
  err : Option String
  deriving Repr

/-- One iteration of the `while` body of `processQueryInReactLoop`
(`part_000` lines 430-550), entered with the already-incremented
`loopCount`: call the transport, accumulate the streamed response,
append the assistant message, and

* when the message carries a non-empty `tool_calls` array, run the
  tool-call loop; if it executed at least one `executeCode` call, emit
  the reasoning-step banner, inject the budget reminder when
  `loopCount >= maxSteps - 2`, and `continue`;
* otherwise (no tool calls, an empty array, or a non-empty array in
  which nothing was executed) emit the final-response separator and
  `break`. -/
def reactStep (cfg : AgentCfg) (maxSteps loopCount : Nat) (st : LoopState) : StepOut :=
  let acc := accumulateResponse (cfg.transport st.completions)
  let message := acc.1
  let st1 : LoopState :=
    { history := st.history ++ [mkAssistantMsg message]
      outputs := st.outputs ++ acc.2
      completions := st.completions + 1 }
  let finish : LoopState → StepOut := fun s =>
    ⟨{ s with outputs := s.outputs ++ ["", "----------------------------------"] }, false, none⟩
  match message.tool_calls with
  | some arr =>
      if arr.length > 0 then
        let r := processToolCalls cfg arr st1 false
        match r.2.2 with
        | some e => ⟨r.1, false, some e⟩
        | none =>
            if r.2.1 then
              let s2 : LoopState :=
                { r.1 with outputs := r.1.outputs ++
                    ["", "----Reasoning Step " ++ toString loopCount ++ "----"] }
              let s3 : LoopState :=
                if loopCount ≥ maxSteps - 2 then
                  { s2 with history := s2.history ++ [reminderMsg maxSteps] }
                else s2
              ⟨s3, true, none⟩
            else finish r.1
      else finish st1
  | none => finish st1

/-- The `while (loopCount < maxSteps)` loop (`part_000` lines
430-550) as a recursion on the remaining iteration budget
`fuel = maxSteps - loopCount`; the entry call is
`reactGo cfg maxSteps maxSteps 0`.  Returns the state, the final
`loopCount`, and `some msg` if an iteration threw. -/
def reactGo (cfg : AgentCfg) (maxSteps : Nat) :
    Nat → Nat → LoopState → LoopState × Nat × Option String
  | 0, lc, st => (st, lc, none)
  | fuel + 1, lc, st =>
      let o := reactStep cfg maxSteps (lc + 1) st
      match o.err with
      | some e => (o.st, lc + 1, some e)
      | none =>
          if o.cont then reactGo cfg maxSteps fuel (lc + 1) o.st
          else (o.st, lc + 1, none)

/-- `processQueryInReactLoop(userQuery, maxSteps)` (`part_000` lines
411-564): the readiness guards throw before the user message is
appended; then the react loop runs, the budget-exhaustion note is
emitted when the final `loopCount` reached `maxSteps`, and a thrown
iteration is reported as `Agent error: ...` and re-thrown
(`Except.error`). -/
def processQueryInReactLoop (cfg : AgentCfg) (userQuery : String) (maxSteps : Nat)
    (st : LoopState) : LoopState × Except String Unit :=
  if cfg.clientReady = false then (st, .error "OpenAI client not initialized")
  else if cfg.kernelReady = false then (st, .error "Kernel not initialized")
  else
    let st1 : LoopState := { st with history := st.history ++ [userMsg userQuery] }
    match reactGo cfg maxSteps maxSteps 0 st1 with
    | (st2, lcF, none) =>
        if lcF ≥ maxSteps then
          ({ st2 with outputs := st2.outputs ++ ["", exhaustNote maxSteps] }, .ok ())
        else (st2, .ok ())
    | (st2, _, some e) =>
        ({ st2 with outputs := st2.outputs ++ ["Agent error: " ++ e] }, .error e)

/-- `processQuery(userQuery)` of `agent.ts` (lines 76-183): the same
readiness guards, a single completion, and one pass over the tool
calls (`if (message.tool_calls)` — any array, even empty, is truthy);
a throw inside the try block is reported and re-thrown. -/
def processQuery (cfg : AgentCfg) (userQuery : String) (st : LoopState) :
    LoopState × Except String Unit :=
  if cfg.clientReady = false then (st, .error "OpenAI client not initialized")
  else if cfg.kernelReady = false then (st, .error "Kernel not initialized")
  else
    let acc := accumulateResponse (cfg.transport st.completions)
    let message := acc.1
    let st1 : LoopState :=
      { history := st.history ++ [userMsg userQuery, mkAssistantMsg message]
        outputs := st.outputs ++ acc.2
        completions := st.completions + 1 }
    match message.tool_calls with
    | some arr =>
        match processToolCallsA cfg arr st1 with
        | (st2, some e) =>
            ({ st2 with outputs := st2.outputs ++ ["Agent error: " ++ e] }, .error e)
        | (st2, none) => (st2, .ok ())
    | none => (st1, .ok ())

/-! ### Concrete inputs used by the claim theorems and witnesses -/

/-- A streamed tool-call fragment carrying its `index` key, as a
transport delivers it. -/
def c1Frag : ToolCallFragment :=
  ⟨some 0, some "call_1", some "function", some ⟨some "execu", some "\x7b\"co"⟩⟩

/-- A chunk whose delta carries the fragment `c1Frag`. -/
def c1Chunk : Chunk := ⟨[⟨⟨none, none, some [c1Frag]⟩⟩]⟩

/-- A follow-up fragment for slot 0 completing the name and
arguments. -/
def c1Frag2 : ToolCallFragment := ⟨some 0, none, none, some ⟨some "teCode", some "de\":1\x7d"⟩⟩

/-- A chunk whose delta carries the fragment `c1Frag2`. -/
def c1Chunk2 : Chunk := ⟨[⟨⟨none, none, some [c1Frag2]⟩⟩]⟩

/-- The message accumulated after `c1Chunk`. -/
def c1Mid : Message := messageReducer initAssistant c1Chunk

/-- A first (and only) fragment claiming index 1, leaving index 0
unsupplied: a gapped stream. -/
def c4GapFrag : ToolCallFragment :=
  ⟨some 1, some "call_9", some "function", some ⟨some "executeCode", some "\x7b\x7d"⟩⟩

/-- The transport used in the C4 counterexample: the first response
streams only `c4GapFrag`; the second is a plain final answer. -/
def c4cfg : AgentCfg where
  transport k := if k = 0 then [⟨[⟨⟨none, none, some [c4GapFrag]⟩⟩]⟩] else [⟨[⟨⟨none, some "done", none⟩⟩]⟩]
  execute _ := .ok ⟨true, [], none⟩
  parseArgs _ := .ok ⟨"1+1", "calc"⟩
  clientReady := true
  kernelReady := true

/-- A chunk whose delta carries `role: 'assistant'` and some content,
the shape of the first chunk of a real streamed completion. -/
def c5RoleChunk : Chunk := ⟨[⟨⟨some "assistant", some "Hi", none⟩⟩]⟩

/-- A 50-line stream payload. -/
def c6FiftyLines : String := String.intercalate "\n" (List.replicate 50 "x")

/-- A single 1200-character line. -/
def c6LongLine : String := String.mk (List.replicate 1200 'a')

/-- Well-formedness of one `tool_calls` entry as the loop iterates it:
the entry is present (not a sparse hole) and, when it declares
`type: 'function'`, it carries a `function` object — exactly the
conditions under which the JS property reads of `part_000` line 502 do
not throw. -/
def wfEntryB : Option StoredCall → Bool
  | none => false
  | some tc => !(decide (tc.type = some "function")) || tc.function.isSome

/-- Is one entry an `executeCode` function call — the dispatch
condition of `part_000` line 502. -/
def isExecEntryB : Option StoredCall → Bool
  | none => false
  | some tc =>
      decide (tc.type = some "function") &&
        (match tc.function with
         | some f => decide (f.name = some "executeCode")
         | none => false)

/-- The fake-transport hypothesis of the budget claim: the `k`-th
response accumulates to a message carrying a non-empty, well-formed
tool-call array with at least one `executeCode` call. -/
def execResponse (cfg : AgentCfg) (k : Nat) : Prop :=
  ∃ arr, (accumulateResponse (cfg.transport k)).1.tool_calls = some arr ∧ arr ≠ [] ∧
    (∀ c ∈ arr, wfEntryB c = true) ∧ arr.any isExecEntryB = true

/-- Traceback lines with ANSI colour codes, as Pyodide emits them. -/
def c7Traceback : List String :=
  ["\x1b[31mTraceback (most recent call last)\x1b[0m", "  cell 1", "  cell 2",
    "  cell 3", "  cell 4", "  cell 5", "  cell 6"]

/-- A first-class error event with name, message and traceback. -/
def c7ErrEvt : ExecutionEvent :=
  ⟨"error",
    some ⟨none, none, some "ZeroDivisionError", some "division by zero", some c7Traceback⟩⟩

/-- A MIME bundle carrying a PNG payload. -/
def c7PngMd : MimeBundle := ⟨some "iVBORw0KGgoAAAANSUhEUg", none, none, none, none⟩

/-- A display event carrying the PNG bundle. -/
def c7PngEvt : ExecutionEvent := ⟨"display_data", some ⟨none, some c7PngMd, none, none, none⟩⟩

/-- A MIME bundle carrying a JPEG payload (and no PNG). -/
def c7JpgMd : MimeBundle := ⟨none, some "/9j/4AAQSkZJRg", none, none, none⟩

/-- An execute-result event carrying the JPEG bundle. -/
def c7JpgEvt : ExecutionEvent := ⟨"execute_result", some ⟨none, some c7JpgMd, none, none, none⟩⟩

/-- A chunk streaming one complete `executeCode` tool call. -/
def execCallChunk : Chunk :=
  ⟨[⟨⟨none, none, some [⟨some 0, some "call_1", some "function",
      some ⟨some "executeCode", some "\x7b\"code\":\"1+1\",\"explanation\":\"calc\"\x7d"⟩⟩]⟩⟩]⟩

/-- A chunk streaming a plain text final answer. -/
def plainAnswerChunk : Chunk := ⟨[⟨⟨none, some "All done.", none⟩⟩]⟩

/-- A transport that requests `executeCode` on every completion, with
a succeeding sandbox — the C2 witness configuration. -/
def c2cfg : AgentCfg where
  transport _ := [execCallChunk]
  execute _ := .ok ⟨true, [⟨"stream", some ⟨some "2\n", none, none, none, none⟩⟩], none⟩
  parseArgs _ := .ok ⟨"1+1", "calc"⟩
  clientReady := true
  kernelReady := true

/-- A transport whose first response requests only an unknown tool
(`searchWeb`), then answers plainly. -/
def unknownToolCfg : AgentCfg where
  transport k :=
    if k = 0 then
      [⟨[⟨⟨none, none, some [⟨some 0, some "call_7", some "function",
          some ⟨some "searchWeb", some "\x7b\x7d"⟩⟩]⟩⟩]⟩]
    else [plainAnswerChunk]
  execute _ := .ok ⟨true, [], none⟩
  parseArgs _ := .ok ⟨"", ""⟩
  clientReady := true
  kernelReady := true

/-- A transport requesting `executeCode` once and then answering, over
a sandbox that throws on every execution — the C8 witness
configuration. -/
def c8cfg : AgentCfg where
  transport k := if k = 0 then [execCallChunk] else [plainAnswerChunk]
  execute _ := .error "KernelManager not ready"
  parseArgs _ := .ok ⟨"1+1", "calc"⟩
  clientReady := true
  kernelReady := true

/-- An agent whose OpenAI client is missing — the C9 witness
configuration. -/
def c9cfg : AgentCfg where
  transport _ := []
  execute _ := .ok ⟨true, [], none⟩
  parseArgs _ := .ok ⟨"", ""⟩
  clientReady := false
  kernelReady := true

/-- The `function` object of a complete `executeCode` call. -/
def execFnObj : FnObj :=
  ⟨some "executeCode", some "\x7b\"code\":\"1+1\",\"explanation\":\"calc\"\x7d"⟩

/-- A complete `executeCode` tool-call entry. -/
def execStoredCall : StoredCall := ⟨some "call_1", some "function", some execFnObj⟩

/-- A complete tool-call entry with an unknown name. -/
def unknownStoredCall : StoredCall :=
  ⟨some "call_7", some "function", some ⟨some "searchWeb", some "\x7b\x7d"⟩⟩

/-- An agent whose `JSON.parse` rejects every arguments payload — the
malformed-arguments witness configuration. -/
def malformedArgsCfg : AgentCfg where
  transport _ := [execCallChunk]
  execute _ := .ok ⟨true, [], none⟩
  parseArgs _ := .error "Unexpected end of JSON input"
  clientReady := true
  kernelReady := true

/-! ### Claim C1 — associativity / purity of `messageReducer` -/

/-- C1, counterexample to the purity conjunct: `messageReducer`
mutates both of its arguments.  On the first tool-call batch it
deletes the `index` key from the delta's fragment objects, so the
chunk observable after the call differs from the chunk passed in; on
a later batch it merges into the `tool_calls` array shared with the
previous message, so the previous message observable after the call
differs from the message passed in.  Hence the function is not pure in
the sense the claim states. -/
theorem c1_reducer_mutates_arguments :
    (messageReducerT initAssistant c1Chunk).2 ≠ c1Chunk ∧
      (messageReducerT c1Mid c1Chunk2).1.prevAfter ≠ c1Mid := by
  decide

/-- C1 (amended): the chunking-invariance conjunct holds — folding
`messageReducer` over any splitting of a fixed chunk sequence into
consecutive sub-sequences yields the same final message as folding
over the flat sequence — but the function is not pure: it deletes the
`index` keys from the delta's tool-call fragments and merges later
fragments into the previous message's tool-call array in place (see
the counterexample). -/
theorem c1_chunking_invariant (m : Message) (ss : List (List Chunk)) :
    ss.foldl (fun acc sub => sub.foldl messageReducer acc) m =
      ss.flatten.foldl messageReducer m :=
  (List.foldl_flatten messageReducer m ss).symm

/-! ### Claim C4 — index gaps are not flagged -/

/-- C4, counterexample: a delta sequence whose tool-call fragments
leave index 0 unsupplied (the only fragment claims index 1) surfaces
no error at all.  The accumulator stores the fragment at position 0 —
the gap is silently compacted, because the first-batch path adopts the
array positionally after discarding the `index` keys — and a full loop
run over this stream completes normally (`Except.ok`), even executing
the call, instead of aborting the step. -/
theorem c4_gap_not_flagged :
    (accumulateResponse (c4cfg.transport 0)).1.tool_calls =
      some [some ⟨some "call_9", some "function", some ⟨some "executeCode", some "\x7b\x7d"⟩⟩] ∧
    (processQueryInReactLoop c4cfg "q" 5 ⟨[], [], 0⟩).2 = Except.ok () ∧
    (processQueryInReactLoop c4cfg "q" 5 ⟨[], [], 0⟩).1.history.countP
        (fun m => decide (m.role = "tool")) = 1 :=
  ⟨by decide, rfl, by decide⟩

/-- C4 (amended): accumulation performs no completion-time gap check
and has no error channel.  A first batch of fragments is adopted
positionally with its `index` keys discarded — a fragment claiming any
index lands at its delivery position, silently compacting a leading
gap — and a later fragment addressed past the end of the array pads
the skipped slots with `undefined` holes, again without an error. -/
theorem c4_no_gap_check :
    (∀ (mr mc dr dc : Option String) (frs : List ToolCallFragment),
      (reduceDelta ⟨mr, mc, none⟩ ⟨dr, dc, some frs⟩).result.tool_calls =
        some (frs.map fun fr => some (fragToStored fr))) ∧
    (∀ (x : StoredCall) (i t : Option String) (f : Option FnObj),
      mergeFragments [some x] [⟨some 2, i, t, f⟩] = [some x, none, some ⟨i, t, f⟩]) := by
  constructor
  · intro mr mc dr dc frs; rfl
  · intro x i t f; rfl

/-! ### Claim C5 — per-field merge rules -/

/-- C5, counterexample to the scalar rule: `role` is a string, so the
reducer applies the string rule — concatenation — rather than
first-non-empty-wins.  Starting from the initial accumulator (whose
`role` is already the non-empty `'assistant'`), a delta carrying
`role: 'assistant'` yields `'assistantassistant'`: the previously set
value does not win. -/
theorem c5_role_not_first_wins :
    (messageReducer initAssistant c5RoleChunk).role = some "assistantassistant" ∧
      some "assistantassistant" ≠ (some "assistant" : Option String) := by
  decide

/-- C5 (amended): text fields are indeed combined by concatenation
(previous value followed by delta value) and a field that is
`undefined`/`null` in the accumulator is set by the first delta that
carries it; but `role`, being a string, follows the same concatenation
rule instead of being frozen by its first non-empty value — a later
delta carrying role text is appended to the stored role.  A field the
delta does not carry is left unchanged. -/
theorem c5_merge_rules :
    (∀ (ca cb : String) (mr dr : Option String) (mtc : Option (List (Option StoredCall)))
        (dtc : Option (List ToolCallFragment)),
      (reduceDelta ⟨mr, some ca, mtc⟩ ⟨dr, some cb, dtc⟩).result.content = some (ca ++ cb)) ∧
    (∀ (ra rb : String) (mc dc : Option String) (mtc : Option (List (Option StoredCall)))
        (dtc : Option (List ToolCallFragment)),
      (reduceDelta ⟨some ra, mc, mtc⟩ ⟨some rb, dc, dtc⟩).result.role = some (ra ++ rb)) ∧
    (∀ (mc dr dc : Option String) (mtc : Option (List (Option StoredCall)))
        (dtc : Option (List ToolCallFragment)),
      (reduceDelta ⟨none, mc, mtc⟩ ⟨dr, dc, dtc⟩).result.role = dr) ∧
    (∀ (mr mc : Option String) (mtc : Option (List (Option StoredCall)))
        (dtc : Option (List ToolCallFragment)),
      (reduceDelta ⟨mr, mc, mtc⟩ ⟨none, none, dtc⟩).result.role = mr ∧
        (reduceDelta ⟨mr, mc, mtc⟩ ⟨none, none, dtc⟩).result.content = mc) := by
  refine ⟨?_, ?_, ?_, ?_⟩
  · intro ca cb mr dr mtc dtc
    cases mtc <;> cases dtc <;> rfl
  · intro ra rb mc dc mtc dtc
    cases mtc <;> cases dtc <;> rfl
  · intro mc dr dc mtc dtc
    cases mtc <;> cases dtc <;> rfl
  · intro mr mc mtc dtc
    cases mtc <;> cases dtc <;> exact ⟨by cases mr <;> rfl, by cases mc <;> rfl⟩

/-! ### Claim C6 — output summarization caps -/

/-- C6: the caps of `shortenOutput`.  With `s` the stripped and
trimmed text and `ls` its lines: when more than 20 lines are present
(and the capped text is short enough that the character cap does not
also fire), the result is exactly the first 20 lines followed by a
marker naming the number of dropped lines; when at most 20 lines but
more than 1000 characters are present, the result is exactly the
first 1000 characters followed by a marker naming the number of
dropped characters.  Each bound is applied independently with its own
marker. -/
theorem c6_shortenOutput_caps (text ty s : String) (ls : List String)
    (hs : s = jsTrim (stripAnsiCodes text)) (hls : ls = jsSplitNl s) :
    (20 < ls.length →
      (String.intercalate "\n" (ls.take 20) ++ "\n... (" ++ toString (ls.length - 20) ++
          " more lines truncated)").length ≤ 1000 →
      shortenOutput text ty =
        String.intercalate "\n" (ls.take 20) ++ "\n... (" ++ toString (ls.length - 20) ++
          " more lines truncated)") ∧
    (ls.length ≤ 20 → 1000 < s.length →
      shortenOutput text ty =
        s.take 1000 ++ "\n... (" ++ toString (s.length - 1000) ++
          " more characters truncated)") := by
  subst hs hls
  by_cases ht : text = ""
  · subst ht
    exact ⟨fun h1 _ => absurd h1 (by decide), fun _ h2 => absurd h2 (by decide)⟩
  · constructor
    · intro h1 h2
      simp only [shortenOutput, if_neg ht]
      rw [if_pos h1, if_neg (Nat.not_lt.mpr h2)]
    · intro h1 h2
      simp only [shortenOutput, if_neg ht]
      rw [if_neg (Nat.not_lt.mpr h1), if_pos h2]

/-- `stripAnsiGo` leaves a list containing no ESC character
unchanged. -/
theorem stripAnsiGo_no_esc : ∀ (n : Nat) (l : List Char), (∀ c ∈ l, c ≠ '\x1b') →
    l.length ≤ n → stripAnsiGo n l = l
  | 0, [], _, _ => rfl
  | 0, _ :: _, _, hlen => absurd hlen (by simp)
  | _ + 1, [], _, _ => rfl
  | n + 1, c :: cs, h, hlen => by
    have hc : ¬(c = '\x1b') := h c (List.mem_cons_self _ _)
    unfold stripAnsiGo
    rw [if_neg hc]
    rw [stripAnsiGo_no_esc n cs (fun x hx => h x (List.mem_cons_of_mem _ hx))
      (Nat.le_of_succ_le_succ (by simpa using hlen))]

/-- `dropWhile isWhitespace` does not touch a run of `'a'`s. -/
theorem dropWhile_ws_replicate (n : Nat) :
    List.dropWhile Char.isWhitespace (List.replicate n 'a') = List.replicate n 'a' := by
  cases n with
  | zero => rfl
  | succ m => rw [List.replicate_succ, List.dropWhile_cons, if_neg (by decide)]

/-- `splitNlAux` of a newline-free list is that single piece. -/
theorem splitNlAux_no_nl : ∀ l : List Char, '\n' ∉ l → splitNlAux l = [l]
  | [], _ => rfl
  | c :: cs, h => by
    unfold splitNlAux
    rw [if_neg (fun hc => h (by rw [hc]; exact List.mem_cons_self _ _)),
      splitNlAux_no_nl cs (fun hm => h (List.mem_cons_of_mem _ hm))]

/-- ANSI stripping is the identity on the long-line payload. -/
theorem stripAnsi_c6LongLine : stripAnsiCodes c6LongLine = c6LongLine := by
  unfold stripAnsiCodes c6LongLine
  rw [stripAnsiGo_no_esc _ _ (fun c hc => by rw [List.eq_of_mem_replicate hc]; decide)
    (Nat.le_refl _)]

/-- Trimming is the identity on the long-line payload. -/
theorem jsTrim_c6LongLine : jsTrim c6LongLine = c6LongLine := by
  unfold jsTrim c6LongLine
  simp only [dropWhile_ws_replicate, List.reverse_replicate]

/-- The long-line payload is a single line. -/
theorem jsSplitNl_c6LongLine : jsSplitNl c6LongLine = [c6LongLine] := by
  unfold jsSplitNl c6LongLine
  rw [splitNlAux_no_nl _ (fun hm => by
    have := List.eq_of_mem_replicate hm
    exact absurd this (by decide))]
  rfl

/-- The length of the long-line payload. -/
theorem c6LongLine_length : c6LongLine.length = 1200 := by
  have h : c6LongLine.length = (List.replicate 1200 'a').length := rfl
  rw [h, List.length_replicate]

/-- C6 witness: on the 50-line stream the summary is exactly the first
20 lines plus a marker noting 30 more lines truncated; on the
1200-character line it is the first 1000 characters plus a marker
noting 200 more characters truncated. -/
theorem c6_shortenOutput_caps_witness :
    (20 < (jsSplitNl (jsTrim (stripAnsiCodes c6FiftyLines))).length ∧
      shortenOutput c6FiftyLines "text" =
        String.intercalate "\n" ((jsSplitNl (jsTrim (stripAnsiCodes c6FiftyLines))).take 20) ++
          "\n... (" ++
          toString ((jsSplitNl (jsTrim (stripAnsiCodes c6FiftyLines))).length - 20) ++
          " more lines truncated)") ∧
    (1000 < (jsTrim (stripAnsiCodes c6LongLine)).length ∧
      shortenOutput c6LongLine "text" =
        (jsTrim (stripAnsiCodes c6LongLine)).take 1000 ++ "\n... (" ++
          toString ((jsTrim (stripAnsiCodes c6LongLine)).length - 1000) ++
          " more characters truncated)") := by
  have e2 : jsTrim (stripAnsiCodes c6LongLine) = c6LongLine := by
    rw [stripAnsi_c6LongLine, jsTrim_c6LongLine]
  have hchars : 1000 < (jsTrim (stripAnsiCodes c6LongLine)).length := by
    rw [e2, c6LongLine_length]; norm_num
  have hlines : (jsSplitNl (jsTrim (stripAnsiCodes c6LongLine))).length ≤ 20 := by
    rw [e2, jsSplitNl_c6LongLine]; decide
  refine ⟨⟨by decide, ?_⟩, ⟨hchars, ?_⟩⟩
  · exact (c6_shortenOutput_caps c6FiftyLines "text" _ _ rfl rfl).1 (by decide) (by decide)
  · exact (c6_shortenOutput_caps c6LongLine "text" _ _ rfl rfl).2 hlines hchars

/-! ### Claim C7 — rendering by kind: errors and binary payloads -/

/-- C7: for an error-kind output event with a non-empty traceback, the
rendered parts are the `ename: evalue` line plus the first at most 5
traceback lines, each with ANSI control sequences stripped; for a
rich-display event carrying an `image/png` (resp. `image/jpeg`)
payload, the rendered parts are exactly the opaque placeholder — a
constant independent of the payload, so the binary data never appears
in the summary. -/
theorem c7_render_error_image (evt : ExecutionEvent) (tb : List String) (md : MimeBundle) :
    ((evt.type = "error" ∨ evt.type = "execute_error") →
      evt.data.bind (·.traceback) = some tb → tb ≠ [] →
      renderEvent evt =
        [jsShow (evt.data.bind (·.ename)) ++ ": " ++ jsShow (evt.data.bind (·.evalue)),
          String.intercalate "\n" ((tb.take 5).map stripAnsiCodes)] ∧
        ((tb.take 5).map stripAnsiCodes).length ≤ 5) ∧
    ((evt.type = "execute_result" ∨ evt.type = "display_data") →
      evt.data.bind (·.data) = some md →
      (jsTruthy md.png = true → renderEvent evt = ["<image/png: base64 data truncated>"]) ∧
      (jsTruthy md.png = false → jsTruthy md.jpeg = true →
        renderEvent evt = ["<image/jpeg: base64 data truncated>"])) := by
  constructor
  · intro h htb hne
    have hlen : ((tb.take 5).map stripAnsiCodes).length ≤ 5 := by
      simp only [List.length_map, List.length_take]
      exact min_le_left _ _
    refine ⟨?_, hlen⟩
    have hpos : 0 < tb.length := List.length_pos.mpr hne
    have hstream : ¬(evt.type = "stream") := by rcases h with h | h <;> simp [h]
    have hres : ¬(evt.type = "execute_result" ∨ evt.type = "display_data") := by
      rcases h with h | h <;> simp [h]
    unfold renderEvent
    rw [if_neg hstream, if_neg hres, if_pos h, htb]
    simp only [gt_iff_lt, if_pos hpos]
  · intro h hmd
    have hstream : ¬(evt.type = "stream") := by rcases h with h | h <;> simp [h]
    constructor
    · intro hpng
      unfold renderEvent
      rw [if_neg hstream, if_pos h, hmd]
      simp only [hpng, eq_self_iff_true, if_true]
    · intro hpng hjpg
      unfold renderEvent
      rw [if_neg hstream, if_pos h, hmd]
      simp only [hpng, hjpg, Bool.false_eq_true, eq_self_iff_true, if_false, if_true]


/-! ### Loop lemmas shared by the claim theorems -/

/-- The tool-call loop skips well-formed entries that are not
`executeCode` function calls, leaving the state and flag unchanged and
throwing nothing. -/
theorem processToolCalls_skip (cfg : AgentCfg) :
    ∀ (calls : List (Option StoredCall)) (st : LoopState) (flag : Bool),
      (∀ c ∈ calls, wfEntryB c = true ∧ isExecEntryB c = false) →
      processToolCalls cfg calls st flag = (st, flag, none)
  | [], _, _, _ => rfl
  | none :: _, _, _, h => absurd (h none (List.mem_cons_self _ _)).1 (by simp [wfEntryB])
  | some tc :: rest, st, flag, h => by
    have h1 := h (some tc) (List.mem_cons_self _ _)
    have hrec := processToolCalls_skip cfg rest st flag
      (fun c hc => h c (List.mem_cons_of_mem _ hc))
    unfold processToolCalls
    by_cases ht : tc.type = some "function"
    · rw [if_pos ht]
      cases hfn : tc.function with
      | none => exact absurd h1.1 (by simp [wfEntryB, ht, hfn])
      | some f =>
        have hn : ¬(f.name = some "executeCode") := by
          have h2 := h1.2
          simp [isExecEntryB, ht, hfn] at h2
          exact h2
        simp only [hfn, hn, eq_self_iff_true, if_true, ite_false, if_false]
        exact hrec
    · rw [if_neg ht]
      exact hrec

/-- One loop iteration on a response whose tool-call array is
non-empty but contains no `executeCode` call: only the assistant
message is appended, no tool message, and the iteration breaks exactly
as on a final answer. -/
theorem reactStep_noexec (cfg : AgentCfg) (maxSteps lc : Nat) (st : LoopState)
    (arr : List (Option StoredCall))
    (hacc : (accumulateResponse (cfg.transport st.completions)).1.tool_calls = some arr)
    (hne : arr ≠ [])
    (hwf : ∀ c ∈ arr, wfEntryB c = true ∧ isExecEntryB c = false) :
    reactStep cfg maxSteps lc st =
      ⟨⟨st.history ++ [mkAssistantMsg (accumulateResponse (cfg.transport st.completions)).1],
        st.outputs ++ (accumulateResponse (cfg.transport st.completions)).2 ++
          ["", "----------------------------------"],
        st.completions + 1⟩, false, none⟩ := by
  simp only [reactStep, hacc]
  rw [if_pos (List.length_pos.mpr hne),
    processToolCalls_skip cfg arr _ false hwf]
  simp [List.append_assoc]

/-! ### Claim C9 — precondition atomicity -/

/-- C9: when the OpenAI client or the kernel is not ready, both entry
points throw before appending the user message: the returned state is
exactly the state passed in. -/
theorem c9_preconditions_atomic (cfg : AgentCfg) (q : String) (maxSteps : Nat)
    (st : LoopState) (h : cfg.clientReady = false ∨ cfg.kernelReady = false) :
    (∃ e, processQueryInReactLoop cfg q maxSteps st = (st, Except.error e)) ∧
    (∃ e, processQuery cfg q st = (st, Except.error e)) := by
  rcases h with h | h
  · exact ⟨⟨"OpenAI client not initialized", by simp [processQueryInReactLoop, h]⟩,
      ⟨"OpenAI client not initialized", by simp [processQuery, h]⟩⟩
  · cases hc : cfg.clientReady with
    | false =>
        exact ⟨⟨"OpenAI client not initialized", by simp [processQueryInReactLoop, hc]⟩,
          ⟨"OpenAI client not initialized", by simp [processQuery, hc]⟩⟩
    | true =>
        exact ⟨⟨"Kernel not initialized", by simp [processQueryInReactLoop, hc, h]⟩,
          ⟨"Kernel not initialized", by simp [processQuery, hc, h]⟩⟩

/-- C9 witness: with the client missing, both entry points throw and
return the empty state untouched. -/
theorem c9_preconditions_atomic_witness :
    (c9cfg.clientReady = false ∨ c9cfg.kernelReady = false) ∧
    ((∃ e, processQueryInReactLoop c9cfg "hi" 3 ⟨[], [], 0⟩ = (⟨[], [], 0⟩, Except.error e)) ∧
      (∃ e, processQuery c9cfg "hi" ⟨[], [], 0⟩ = (⟨[], [], 0⟩, Except.error e))) :=
  ⟨Or.inl rfl, c9_preconditions_atomic c9cfg "hi" 3 ⟨[], [], 0⟩ (Or.inl rfl)⟩

/-! ### Claim C10 — non-executeCode tool calls end the loop silently -/

/-- C10: when the accumulated message carries a non-empty tool-call
list in which no entry is an `executeCode` function call, the loop
appends no tool-role message for any of them and exits after this
single completion exactly as on a final answer: the final history is
the original history plus the user message plus the assistant message
(which still carries the unanswered tool calls), and only one
completion was performed. -/
theorem c10_nonexec_exits_loop (cfg : AgentCfg) (q : String) (maxSteps : Nat)
    (h0 : List ChatMessage) (arr : List (Option StoredCall))
    (hcl : cfg.clientReady = true) (hk : cfg.kernelReady = true)
    (hms : 1 ≤ maxSteps)
    (hacc : (accumulateResponse (cfg.transport 0)).1.tool_calls = some arr)
    (hne : arr ≠ [])
    (hwf : ∀ c ∈ arr, wfEntryB c = true ∧ isExecEntryB c = false) :
    ∃ outs,
      processQueryInReactLoop cfg q maxSteps ⟨h0, [], 0⟩ =
        (⟨h0 ++ [userMsg q, mkAssistantMsg (accumulateResponse (cfg.transport 0)).1],
          outs, 1⟩, Except.ok ()) ∧
      ∀ m ∈ [userMsg q, mkAssistantMsg (accumulateResponse (cfg.transport 0)).1],
        m.role ≠ "tool" := by
  obtain ⟨n, rfl⟩ : ∃ n, maxSteps = n + 1 := ⟨maxSteps - 1, by omega⟩
  have hrole : ∀ m ∈ [userMsg q, mkAssistantMsg (accumulateResponse (cfg.transport 0)).1],
      m.role ≠ "tool" := by
    intro m hm
    simp only [List.mem_cons, List.not_mem_nil, or_false] at hm
    rcases hm with hm | hm
    · rw [hm]; simp [userMsg]
    · rw [hm]; simp [mkAssistantMsg]
  have hstep := reactStep_noexec cfg (n + 1) 1 ⟨h0 ++ [userMsg q], [], 0⟩ arr hacc hne hwf
  by_cases hn1 : (0 + 1 : Nat) ≥ n + 1
  · refine ⟨(accumulateResponse (cfg.transport 0)).2 ++
      ["", "----------------------------------", "", exhaustNote (n + 1)], ?_, hrole⟩
    simp only [processQueryInReactLoop, hcl, hk, Bool.true_eq_false, if_false, reactGo]
    rw [hstep]
    simp only [Bool.false_eq_true, if_false, if_pos hn1]
    simp [List.append_assoc]
  · refine ⟨(accumulateResponse (cfg.transport 0)).2 ++
      ["", "----------------------------------"], ?_, hrole⟩
    simp only [processQueryInReactLoop, hcl, hk, Bool.true_eq_false, if_false, reactGo]
    rw [hstep]
    simp only [Bool.false_eq_true, if_false, if_neg hn1]
    simp [List.append_assoc]

/-- C10 witness: on the unknown-tool transport the run performs one
completion, appends no tool message, and ends as a final answer. -/
theorem c10_nonexec_exits_loop_witness :
    ((accumulateResponse (unknownToolCfg.transport 0)).1.tool_calls =
        some [some ⟨some "call_7", some "function", some ⟨some "searchWeb", some "\x7b\x7d"⟩⟩] ∧
      1 ≤ (5 : Nat)) ∧
    ∃ outs,
      processQueryInReactLoop unknownToolCfg "find papers" 5 ⟨[], [], 0⟩ =
        (⟨[] ++ [userMsg "find papers",
            mkAssistantMsg (accumulateResponse (unknownToolCfg.transport 0)).1],
          outs, 1⟩, Except.ok ()) ∧
      ∀ m ∈ [userMsg "find papers",
          mkAssistantMsg (accumulateResponse (unknownToolCfg.transport 0)).1],
        m.role ≠ "tool" :=
  ⟨⟨by decide, by decide⟩,
    c10_nonexec_exits_loop unknownToolCfg "find papers" 5 []
      [some ⟨some "call_7", some "function", some ⟨some "searchWeb", some "\x7b\x7d"⟩⟩]
      rfl rfl (by decide) (by decide) (by decide) (by decide)⟩

/-! ### Claim C3 — unknown tools and malformed arguments -/

/-- C3, counterexample: the first response requests exactly one tool
call, named `searchWeb` (unknown), yet the run appends no tool-role
message at all for it and simply ends — contradicting the claim that
every requested tool call yields a `success:false` ToolResult and a
tool-role message. -/
theorem c3_unknown_tool_gets_no_result :
    (accumulateResponse (unknownToolCfg.transport 0)).1.tool_calls =
      some [some ⟨some "call_7", some "function", some ⟨some "searchWeb", some "\x7b\x7d"⟩⟩] ∧
    (processQueryInReactLoop unknownToolCfg "q" 5 ⟨[], [], 0⟩).2 = Except.ok () ∧
    (processQueryInReactLoop unknownToolCfg "q" 5 ⟨[], [], 0⟩).1.completions = 1 ∧
    (processQueryInReactLoop unknownToolCfg "q" 5 ⟨[], [], 0⟩).1.history.countP
      (fun m => decide (m.role = "tool")) = 0 :=
  ⟨by decide, rfl, by decide, by decide⟩

/-- C3 (amended): an `executeCode` call whose arguments JSON is
malformed is caught — the loop appends a tool-role message with
`success:false` and the diagnostic text, and throws nothing; but a
well-formed tool call that is not an `executeCode` function call is
silently skipped: no ToolResult is produced and no tool-role message
is appended for it. -/
theorem c3_malformed_args_vs_unknown_tool (cfg : AgentCfg) (st : LoopState) (flag : Bool)
    (tc : StoredCall) (f : FnObj) (e : String) :
    (tc.type = some "function" → tc.function = some f → f.name = some "executeCode" →
      cfg.parseArgs f.arguments = .error e →
      processToolCalls cfg [some tc] st flag =
        ({ st with
            history := st.history ++ [toolMsg tc.id (stringifySuccessError e)],
            outputs := st.outputs ++ ["Error executing code: " ++ e] }, true, none)) ∧
    (wfEntryB (some tc) = true → isExecEntryB (some tc) = false →
      processToolCalls cfg [some tc] st flag = (st, flag, none)) := by
  constructor
  · intro ht hfn hname hparse
    unfold processToolCalls
    rw [if_pos ht]
    simp only [hfn, hname, hparse, eq_self_iff_true, if_true]
    rfl
  · intro hwf hnx
    refine processToolCalls_skip cfg [some tc] st flag ?_
    intro c hc
    simp only [List.mem_cons, List.not_mem_nil, or_false] at hc
    rw [hc]
    exact ⟨hwf, hnx⟩


/-- C7 witness: the concrete error event renders as its
`ename: evalue` line plus the first 5 of its 7 traceback lines with
the colour codes stripped; the PNG and JPEG events render as their
opaque placeholders only. -/
theorem c7_render_error_image_witness :
    ((c7ErrEvt.type = "error" ∨ c7ErrEvt.type = "execute_error") ∧
      c7ErrEvt.data.bind (fun d => d.traceback) = some c7Traceback ∧ c7Traceback ≠ []) ∧
    (renderEvent c7ErrEvt =
        [jsShow (c7ErrEvt.data.bind (fun d => d.ename)) ++ ": " ++
            jsShow (c7ErrEvt.data.bind (fun d => d.evalue)),
          String.intercalate "\n" ((c7Traceback.take 5).map stripAnsiCodes)] ∧
      ((c7Traceback.take 5).map stripAnsiCodes).length ≤ 5) ∧
    renderEvent c7PngEvt = ["<image/png: base64 data truncated>"] ∧
    renderEvent c7JpgEvt = ["<image/jpeg: base64 data truncated>"] :=
  ⟨⟨Or.inl rfl, rfl, by decide⟩,
   (c7_render_error_image c7ErrEvt c7Traceback c7PngMd).1 (Or.inl rfl) rfl (by decide),
   ((c7_render_error_image c7PngEvt [] c7PngMd).2 (Or.inr rfl) rfl).1 rfl,
   ((c7_render_error_image c7JpgEvt [] c7JpgMd).2 (Or.inl rfl) rfl).2 rfl rfl⟩

/-- C3 witness: with a parser that rejects the payload, the single
`executeCode` call yields exactly one `success:false` tool message and
no throw; the single unknown-name call yields nothing at all. -/
theorem c3_malformed_args_vs_unknown_tool_witness :
    (execStoredCall.type = some "function" ∧
      malformedArgsCfg.parseArgs execFnObj.arguments =
        Except.error "Unexpected end of JSON input" ∧
      wfEntryB (some unknownStoredCall) = true ∧
      isExecEntryB (some unknownStoredCall) = false) ∧
    processToolCalls malformedArgsCfg [some execStoredCall] ⟨[], [], 0⟩ false =
      (⟨[toolMsg execStoredCall.id (stringifySuccessError "Unexpected end of JSON input")],
        ["Error executing code: Unexpected end of JSON input"], 0⟩, true, none) ∧
    processToolCalls malformedArgsCfg [some unknownStoredCall] ⟨[], [], 0⟩ false =
      (⟨[], [], 0⟩, false, none) :=
  ⟨⟨rfl, rfl, by decide, by decide⟩,
   (c3_malformed_args_vs_unknown_tool malformedArgsCfg ⟨[], [], 0⟩ false execStoredCall
      execFnObj "Unexpected end of JSON input").1 rfl rfl rfl rfl,
   (c3_malformed_args_vs_unknown_tool malformedArgsCfg ⟨[], [], 0⟩ false unknownStoredCall
      execFnObj "Unexpected end of JSON input").2 (by decide) (by decide)⟩


/-- A message whose role is not `user` is never the budget reminder. -/
theorem notReminder_of_role (m : ChatMessage) (n : Nat) (h : ¬ m.role = "user") :
    decide (m = reminderMsg n) = false := by
  simp only [decide_eq_false_iff_not]
  intro he
  rw [he] at h
  exact h rfl

/-- The tool-call loop over well-formed entries never throws: it
appends only tool-role messages, leaves the completion counter
untouched, and ends with the `hasExecutedTools` flag set exactly when
it was set on entry or an `executeCode` entry is present. -/
theorem processToolCalls_ok (cfg : AgentCfg) :
    ∀ (calls : List (Option StoredCall)) (st : LoopState) (flag : Bool),
      (∀ c ∈ calls, wfEntryB c = true) →
      ∃ seg outs,
        processToolCalls cfg calls st flag =
          (⟨st.history ++ seg, st.outputs ++ outs, st.completions⟩,
            flag || calls.any isExecEntryB, none) ∧
        ∀ m ∈ seg, m.role = "tool"
  | [], st, flag, _ => ⟨[], [], by simp [processToolCalls], by simp⟩
  | none :: _, _, _, h =>
      absurd (h none (List.mem_cons_self _ _)) (by simp [wfEntryB])
  | some tc :: rest, st, flag, h => by
    have hrest : ∀ c ∈ rest, wfEntryB c = true :=
      fun c hc => h c (List.mem_cons_of_mem _ hc)
    unfold processToolCalls
    by_cases ht : tc.type = some "function"
    · rw [if_pos ht]
      cases hfn : tc.function with
      | none =>
          exact absurd (h (some tc) (List.mem_cons_self _ _)) (by simp [wfEntryB, ht, hfn])
      | some f =>
        by_cases hname : f.name = some "executeCode"
        · have hexec : isExecEntryB (some tc) = true := by
            simp [isExecEntryB, ht, hfn, hname]
          simp only [hname, eq_self_iff_true, if_true]
          cases hp : cfg.parseArgs f.arguments with
          | error e =>
            obtain ⟨seg, outs, heq, hrole⟩ := processToolCalls_ok cfg rest
              ⟨st.history ++ [toolMsg tc.id (stringifySuccessError e)],
                st.outputs ++ ["Error executing code: " ++ e], st.completions⟩ true hrest
            refine ⟨toolMsg tc.id (stringifySuccessError e) :: seg,
              ("Error executing code: " ++ e) :: outs, ?_, ?_⟩
            · simp [heq, List.append_assoc, List.any_cons, hexec]
            · intro m hm
              rcases List.mem_cons.mp hm with hm | hm
              · rw [hm]; rfl
              · exact hrole m hm
          | ok args =>
            obtain ⟨seg, outs, heq, hrole⟩ := processToolCalls_ok cfg rest
              ⟨st.history ++ [toolMsg tc.id (stringifySuccessOutput
                  (executeCodeTool cfg.execute args.code args.explanation).2.success
                  (executeCodeTool cfg.execute args.code args.explanation).2.output)],
                st.outputs ++ (executeCodeTool cfg.execute args.code args.explanation).1,
                st.completions⟩ true hrest
            refine ⟨toolMsg tc.id (stringifySuccessOutput
                (executeCodeTool cfg.execute args.code args.explanation).2.success
                (executeCodeTool cfg.execute args.code args.explanation).2.output) :: seg,
              (executeCodeTool cfg.execute args.code args.explanation).1 ++ outs, ?_, ?_⟩
            · simp [heq, List.append_assoc, List.any_cons, hexec]
            · intro m hm
              rcases List.mem_cons.mp hm with hm | hm
              · rw [hm]; rfl
              · exact hrole m hm
        · have hexec : isExecEntryB (some tc) = false := by
            simp [isExecEntryB, ht, hfn, hname]
          simp only [hfn, hname, eq_self_iff_true, if_true, ite_false, if_false]
          obtain ⟨seg, outs, heq, hrole⟩ := processToolCalls_ok cfg rest st flag hrest
          exact ⟨seg, outs, by simp [heq, List.any_cons, hexec], hrole⟩
    · have hexec : isExecEntryB (some tc) = false := by
        simp [isExecEntryB, ht]
      rw [if_neg ht]
      obtain ⟨seg, outs, heq, hrole⟩ := processToolCalls_ok cfg rest st flag hrest
      exact ⟨seg, outs, by simp [heq, List.any_cons, hexec], hrole⟩

/-- One loop iteration on a response carrying a non-empty well-formed
tool-call array with at least one `executeCode` call: the assistant
message, the tool-role results, and — exactly when
`loopCount >= maxSteps - 2` — the budget reminder are appended, and
the iteration continues. -/
theorem reactStep_exec (cfg : AgentCfg) (maxSteps lc : Nat) (st : LoopState)
    (arr : List (Option StoredCall))
    (hacc : (accumulateResponse (cfg.transport st.completions)).1.tool_calls = some arr)
    (hne : arr ≠ []) (hwf : ∀ c ∈ arr, wfEntryB c = true)
    (hex : arr.any isExecEntryB = true) :
    ∃ toolSeg outs,
      reactStep cfg maxSteps lc st =
        ⟨⟨st.history ++ mkAssistantMsg (accumulateResponse (cfg.transport st.completions)).1 ::
            (toolSeg ++ (if lc ≥ maxSteps - 2 then [reminderMsg maxSteps] else [])),
          st.outputs ++ outs, st.completions + 1⟩, true, none⟩ ∧
      ∀ m ∈ toolSeg, m.role = "tool" := by
  obtain ⟨seg, outs₁, heq, hrole⟩ := processToolCalls_ok cfg arr
    ⟨st.history ++ [mkAssistantMsg (accumulateResponse (cfg.transport st.completions)).1],
      st.outputs ++ (accumulateResponse (cfg.transport st.completions)).2,
      st.completions + 1⟩ false hwf
  refine ⟨seg, (accumulateResponse (cfg.transport st.completions)).2 ++ outs₁ ++
    ["", "----Reasoning Step " ++ toString lc ++ "----"], ?_, hrole⟩
  simp only [reactStep, hacc]
  rw [if_pos (List.length_pos.mpr hne), heq]
  simp only [Bool.false_or, hex, if_true]
  by_cases hrem : lc ≥ maxSteps - 2
  · simp [hrem, List.append_assoc]
  · simp [hrem, List.append_assoc]

/-- The loop driven by a transport that always requests `executeCode`
runs its full fuel: starting `fuel` iterations before the budget, it
performs exactly `fuel` further completions, exits at
`loopCount = maxSteps` without throwing, and appends exactly
`min fuel 3` budget reminders. -/
theorem reactGo_exec (cfg : AgentCfg) (maxSteps : Nat) (H : ∀ k, execResponse cfg k) :
    ∀ (fuel lc : Nat) (st : LoopState), lc + fuel = maxSteps →
      ∃ seg outs,
        reactGo cfg maxSteps fuel lc st =
          (⟨st.history ++ seg, st.outputs ++ outs, st.completions + fuel⟩, maxSteps, none) ∧
        seg.countP (fun m => decide (m = reminderMsg maxSteps)) = min fuel 3
  | 0, lc, st, hlc => by
      refine ⟨[], [], ?_, by simp⟩
      have : lc = maxSteps := by omega
      simp [reactGo, this]
  | fuel + 1, lc, st, hlc => by
      obtain ⟨arr, hacc, hne, hwf, hex⟩ := H st.completions
      obtain ⟨toolSeg, outs₁, hstep, hrole⟩ :=
        reactStep_exec cfg maxSteps (lc + 1) st arr hacc hne hwf hex
      obtain ⟨seg₂, outs₂, hgo, hcount₂⟩ := reactGo_exec cfg maxSteps H fuel (lc + 1)
        ⟨st.history ++ mkAssistantMsg (accumulateResponse (cfg.transport st.completions)).1 ::
            (toolSeg ++ (if lc + 1 ≥ maxSteps - 2 then [reminderMsg maxSteps] else [])),
          st.outputs ++ outs₁, st.completions + 1⟩ (by omega)
      refine ⟨mkAssistantMsg (accumulateResponse (cfg.transport st.completions)).1 ::
          (toolSeg ++ (if lc + 1 ≥ maxSteps - 2 then [reminderMsg maxSteps] else []) ++ seg₂),
        outs₁ ++ outs₂, ?_, ?_⟩
      · show reactGo cfg maxSteps (fuel + 1) lc st = _
        unfold reactGo
        rw [hstep]
        simp only []
        rw [hgo]
        simp [List.append_assoc, Nat.add_assoc, Nat.add_comm 1 fuel]
      · have ha : decide (mkAssistantMsg (accumulateResponse (cfg.transport st.completions)).1 =
            reminderMsg maxSteps) = false :=
          notReminder_of_role _ _ (by simp [mkAssistantMsg])
        have htool : toolSeg.countP (fun m => decide (m = reminderMsg maxSteps)) = 0 := by
          refine List.countP_eq_zero.mpr ?_
          intro m hm
          simp only [decide_eq_true_eq]
          intro he
          have hr := hrole m hm
          rw [he] at hr
          exact absurd hr (by simp [reminderMsg])
        have hone : (List.countP (fun m => decide (m = reminderMsg maxSteps))
            [reminderMsg maxSteps]) = 1 := by simp
        by_cases hrem : lc + 1 ≥ maxSteps - 2
        · simp only [hrem, ite_true, List.countP_cons, List.countP_append, htool, hcount₂,
            hone, ha, Bool.false_eq_true, ite_false, List.countP_nil]
          omega
        · simp only [hrem, ite_false, List.countP_cons, List.countP_append, htool, hcount₂,
            ha, Bool.false_eq_true, List.countP_nil]
          omega


/-! ### Claim C2 — loop bounded by the step budget -/

/-- C2: for every `maxSteps ≥ 1` and every transport whose every
response carries an `executeCode` tool call, the loop performs exactly
`maxSteps` completion calls, ends without throwing (`Except.ok`), and
emits the budget-exhaustion notification; and the synthetic user-role
budget reminder is appended exactly at the steps whose counter is
`≥ maxSteps - 2` — that is, `min maxSteps 3` times. -/
theorem c2_budget_bound (cfg : AgentCfg) (q : String) (maxSteps : Nat)
    (h0 : List ChatMessage)
    (hcl : cfg.clientReady = true) (hk : cfg.kernelReady = true)
    (_hms : 1 ≤ maxSteps) (H : ∀ k, execResponse cfg k) :
    ∃ stF, processQueryInReactLoop cfg q maxSteps ⟨h0, [], 0⟩ = (stF, Except.ok ()) ∧
      stF.completions = maxSteps ∧
      exhaustNote maxSteps ∈ stF.outputs ∧
      ∃ rest, stF.history = h0 ++ userMsg q :: rest ∧
        rest.countP (fun m => decide (m = reminderMsg maxSteps)) = min maxSteps 3 := by
  obtain ⟨seg, outs, hgo, hcount⟩ :=
    reactGo_exec cfg maxSteps H maxSteps 0 ⟨h0 ++ [userMsg q], [], 0⟩ (by omega)
  have hrun : processQueryInReactLoop cfg q maxSteps ⟨h0, [], 0⟩ =
      (⟨(h0 ++ [userMsg q]) ++ seg, ([] ++ outs) ++ ["", exhaustNote maxSteps], maxSteps⟩,
        Except.ok ()) := by
    simp only [processQueryInReactLoop, hcl, hk, Bool.true_eq_false, if_false]
    rw [hgo]
    simp
  refine ⟨_, hrun, rfl, ?_, seg, by simp, hcount⟩
  simp

/-- C2 witness: on the always-`executeCode` transport with
`maxSteps = 3`, the run makes exactly 3 completion calls, records the
exhaustion note, and injects the reminder `min 3 3 = 3` times. -/
theorem c2_budget_bound_witness :
    (c2cfg.clientReady = true ∧ c2cfg.kernelReady = true ∧ (1 ≤ 3 ∧ ∀ k, execResponse c2cfg k)) ∧
    (∃ stF, processQueryInReactLoop c2cfg "task" 3 ⟨[], [], 0⟩ = (stF, Except.ok ()) ∧
      stF.completions = 3 ∧
      exhaustNote 3 ∈ stF.outputs ∧
      ∃ rest, stF.history = [] ++ userMsg "task" :: rest ∧
        rest.countP (fun m => decide (m = reminderMsg 3)) = min 3 3) :=
  ⟨⟨rfl, rfl, by decide,
      fun _ => ⟨[some execStoredCall], rfl, by decide, by decide, by decide⟩⟩,
    c2_budget_bound c2cfg "task" 3 [] rfl rfl (by decide)
      (fun _ => ⟨[some execStoredCall], rfl, by decide, by decide, by decide⟩)⟩

/-! ### Claim C8 — tool execution failure is recoverable -/

/-- A failed execution — sandbox throw or `success:false` outcome —
always surfaces as `success:false` in the tool result (`part_000`
lines 353-365). -/
theorem executeCodeTool_fail (execute : String → Except String ExecutionResult)
    (code expl : String)
    (hf : ∀ r, execute code = Except.ok r → r.success = false) :
    (executeCodeTool execute code expl).2.success = false := by
  unfold executeCodeTool
  cases he : execute code with
  | error e => rfl
  | ok r => simp [hf r he]

/-- The tool-call loop on a single parsed `executeCode` call appends
exactly the tool-role message carrying the invoker's result and sets
the flag. -/
theorem processToolCalls_single_exec (cfg : AgentCfg) (st : LoopState) (flag : Bool)
    (tc : StoredCall) (f : FnObj) (code expl : String)
    (ht : tc.type = some "function") (hfn : tc.function = some f)
    (hname : f.name = some "executeCode")
    (hparse : cfg.parseArgs f.arguments = Except.ok ⟨code, expl⟩) :
    processToolCalls cfg [some tc] st flag =
      (⟨st.history ++ [toolMsg tc.id (stringifySuccessOutput
            (executeCodeTool cfg.execute code expl).2.success
            (executeCodeTool cfg.execute code expl).2.output)],
        st.outputs ++ (executeCodeTool cfg.execute code expl).1, st.completions⟩,
        true, none) := by
  unfold processToolCalls
  rw [if_pos ht]
  simp only [hfn, hname, hparse, eq_self_iff_true, if_true]
  rfl

/-- One loop iteration whose accumulated message carries no tool
calls: only the assistant message is appended and the loop breaks. -/
theorem reactStep_final (cfg : AgentCfg) (maxSteps lc : Nat) (st : LoopState)
    (hacc : (accumulateResponse (cfg.transport st.completions)).1.tool_calls = none) :
    reactStep cfg maxSteps lc st =
      ⟨⟨st.history ++ [mkAssistantMsg (accumulateResponse (cfg.transport st.completions)).1],
        st.outputs ++ (accumulateResponse (cfg.transport st.completions)).2 ++
          ["", "----------------------------------"],
        st.completions + 1⟩, false, none⟩ := by
  simp [reactStep, hacc, List.append_assoc]

/-- One loop iteration whose response carries a single parsed
`executeCode` call: assistant message, the tool-role result message,
and (when due) the reminder are appended, and the loop continues. -/
theorem reactStep_single_exec (cfg : AgentCfg) (maxSteps lc : Nat) (st : LoopState)
    (tc : StoredCall) (f : FnObj) (code expl : String)
    (hacc : (accumulateResponse (cfg.transport st.completions)).1.tool_calls = some [some tc])
    (ht : tc.type = some "function") (hfn : tc.function = some f)
    (hname : f.name = some "executeCode")
    (hparse : cfg.parseArgs f.arguments = Except.ok ⟨code, expl⟩) :
    reactStep cfg maxSteps lc st =
      ⟨⟨st.history ++ mkAssistantMsg (accumulateResponse (cfg.transport st.completions)).1 ::
          toolMsg tc.id (stringifySuccessOutput
            (executeCodeTool cfg.execute code expl).2.success
            (executeCodeTool cfg.execute code expl).2.output) ::
          (if lc ≥ maxSteps - 2 then [reminderMsg maxSteps] else []),
        st.outputs ++ (accumulateResponse (cfg.transport st.completions)).2 ++
          (executeCodeTool cfg.execute code expl).1 ++
          ["", "----Reasoning Step " ++ toString lc ++ "----"],
        st.completions + 1⟩, true, none⟩ := by
  simp only [reactStep, hacc]
  rw [if_pos (by simp : (0:Nat) < [some tc].length)]
  rw [processToolCalls_single_exec cfg _ false tc f code expl ht hfn hname hparse]
  by_cases hrem : lc ≥ maxSteps - 2
  · simp [hrem, List.append_assoc]
  · simp [hrem, List.append_assoc]

/-- C8: whenever the sandbox throws or reports failure on the
requested execution, the step yields `success:false`: a tool-role
message carrying the call's id and a `success:false` body is appended
to the history, the loop does not abort but requests another
completion (two completion calls in total here, the second being the
final answer), and the run ends with `Except.ok`. -/
theorem c8_tool_failure_recoverable (cfg : AgentCfg) (q : String) (h0 : List ChatMessage)
    (maxSteps : Nat) (tc : StoredCall) (f : FnObj) (code expl : String)
    (hcl : cfg.clientReady = true) (hk : cfg.kernelReady = true)
    (hms : 2 ≤ maxSteps)
    (hacc0 : (accumulateResponse (cfg.transport 0)).1.tool_calls = some [some tc])
    (ht : tc.type = some "function") (hfn : tc.function = some f)
    (hname : f.name = some "executeCode")
    (hparse : cfg.parseArgs f.arguments = Except.ok ⟨code, expl⟩)
    (hfail : ∀ r, cfg.execute code = Except.ok r → r.success = false)
    (hacc1 : (accumulateResponse (cfg.transport 1)).1.tool_calls = none) :
    ∃ stF, processQueryInReactLoop cfg q maxSteps ⟨h0, [], 0⟩ = (stF, Except.ok ()) ∧
      stF.completions = 2 ∧
      ∃ X, toolMsg tc.id (stringifySuccessOutput false X) ∈ stF.history := by
  obtain ⟨m, rfl⟩ : ∃ m, maxSteps = m + 2 := ⟨maxSteps - 2, by omega⟩
  have hTfail := executeCodeTool_fail cfg.execute code expl hfail
  have hstep1 := reactStep_single_exec cfg (m + 2) 1 ⟨h0 ++ [userMsg q], [], 0⟩
    tc f code expl hacc0 ht hfn hname hparse
  rw [hTfail] at hstep1
  have hstep1' : reactStep cfg (m + 2) (0 + 1) ⟨h0 ++ [userMsg q], [], 0⟩ =
      ⟨⟨(h0 ++ [userMsg q]) ++ mkAssistantMsg (accumulateResponse (cfg.transport 0)).1 ::
          toolMsg tc.id (stringifySuccessOutput false
            (executeCodeTool cfg.execute code expl).2.output) ::
          (if (1 : Nat) ≥ m + 2 - 2 then [reminderMsg (m + 2)] else []),
        (accumulateResponse (cfg.transport 0)).2 ++
          (executeCodeTool cfg.execute code expl).1 ++
          ["", "----Reasoning Step " ++ toString (1 : Nat) ++ "----"],
        1⟩, true, none⟩ := hstep1
  have hstep2 := reactStep_final cfg (m + 2) (1 + 1)
    ⟨(h0 ++ [userMsg q]) ++ mkAssistantMsg (accumulateResponse (cfg.transport 0)).1 ::
        toolMsg tc.id (stringifySuccessOutput false
          (executeCodeTool cfg.execute code expl).2.output) ::
        (if (1 : Nat) ≥ m + 2 - 2 then [reminderMsg (m + 2)] else []),
      (accumulateResponse (cfg.transport 0)).2 ++
        (executeCodeTool cfg.execute code expl).1 ++
        ["", "----Reasoning Step " ++ toString (1 : Nat) ++ "----"],
      1⟩ hacc1
  have hgo : reactGo cfg (m + 2) (m + 2) 0 ⟨h0 ++ [userMsg q], [], 0⟩ =
      (⟨((h0 ++ [userMsg q]) ++ mkAssistantMsg (accumulateResponse (cfg.transport 0)).1 ::
          toolMsg tc.id (stringifySuccessOutput false
            (executeCodeTool cfg.execute code expl).2.output) ::
          (if (1 : Nat) ≥ m + 2 - 2 then [reminderMsg (m + 2)] else [])) ++
          [mkAssistantMsg (accumulateResponse (cfg.transport 1)).1],
        ((accumulateResponse (cfg.transport 0)).2 ++
          (executeCodeTool cfg.execute code expl).1 ++
          ["", "----Reasoning Step " ++ toString (1 : Nat) ++ "----"]) ++
          (accumulateResponse (cfg.transport 1)).2 ++
          ["", "----------------------------------"],
        2⟩, 2, none) := by
    show reactGo cfg (m + 2) (m + 1 + 1) 0 _ = _
    unfold reactGo
    rw [hstep1']
    show reactGo cfg (m + 2) (m + 1) (0 + 1) _ = _
    show reactGo cfg (m + 2) (m + 0 + 1) (0 + 1) _ = _
    unfold reactGo
    rw [show (0 : Nat) + 1 + 1 = 1 + 1 from rfl, hstep2]
    rfl
  refine ⟨⟨((h0 ++ [userMsg q]) ++ mkAssistantMsg (accumulateResponse (cfg.transport 0)).1 ::
      toolMsg tc.id (stringifySuccessOutput false
        (executeCodeTool cfg.execute code expl).2.output) ::
      (if (1 : Nat) ≥ m + 2 - 2 then [reminderMsg (m + 2)] else [])) ++
      [mkAssistantMsg (accumulateResponse (cfg.transport 1)).1],
    (if (2 : Nat) ≥ m + 2 then
      (((accumulateResponse (cfg.transport 0)).2 ++
          (executeCodeTool cfg.execute code expl).1 ++
          ["", "----Reasoning Step " ++ toString (1 : Nat) ++ "----"]) ++
        (accumulateResponse (cfg.transport 1)).2 ++
        ["", "----------------------------------"]) ++ ["", exhaustNote (m + 2)]
     else
      ((accumulateResponse (cfg.transport 0)).2 ++
          (executeCodeTool cfg.execute code expl).1 ++
          ["", "----Reasoning Step " ++ toString (1 : Nat) ++ "----"]) ++
        (accumulateResponse (cfg.transport 1)).2 ++
        ["", "----------------------------------"]),
    2⟩, ?_, rfl, (executeCodeTool cfg.execute code expl).2.output, ?_⟩
  · simp only [processQueryInReactLoop, hcl, hk, Bool.true_eq_false, if_false]
    rw [hgo]
    by_cases hm2 : (2 : Nat) ≥ m + 2 <;> simp [hm2]
  · simp [List.mem_append, List.mem_cons]


/-- C8 witness: on the throwing sandbox the run completes with two
completion calls and a `success:false` tool message carrying
`call_1`'s id in the history. -/
theorem c8_tool_failure_recoverable_witness :
    (c8cfg.clientReady = true ∧ c8cfg.kernelReady = true ∧ (2 : Nat) ≤ 3 ∧
      (accumulateResponse (c8cfg.transport 0)).1.tool_calls = some [some execStoredCall] ∧
      (∀ r, c8cfg.execute "1+1" = Except.ok r → r.success = false) ∧
      (accumulateResponse (c8cfg.transport 1)).1.tool_calls = none) ∧
    ∃ stF, processQueryInReactLoop c8cfg "divide" 3 ⟨[], [], 0⟩ = (stF, Except.ok ()) ∧
      stF.completions = 2 ∧
      ∃ X, toolMsg execStoredCall.id (stringifySuccessOutput false X) ∈ stF.history :=
  ⟨⟨rfl, rfl, by decide, rfl, fun _ h => by simp [c8cfg] at h, rfl⟩,
    c8_tool_failure_recoverable c8cfg "divide" [] 3 execStoredCall execFnObj "1+1" "calc"
      rfl rfl (by decide) rfl rfl rfl rfl rfl (fun _ h => by simp [c8cfg] at h) rfl⟩

end HyphaAgent
